import Mathlib

/-!
# A verification development for the EnCroissant chess engine (`ecr_engine`)

This file gives a shallow embedding, in Lean 4, of the move generation,
threat census, legality filter, mutation engine and evaluator of the
`ecr_engine` crate, and proves (or refutes) the frozen claims about it.

Modelling conventions:

* Rust `Rc<RefCell<BoardPiece>>` cells are modelled by an explicit heap:
  a `Store` (list of `BoardPiece` records) addressed by `PieceId` indices.
  Cloning a `Board` clones the grid and the id lists but shares the
  `Store`, exactly as `#[derive(Clone)]` clones `Rc` handles without
  deep-copying the pieces.  Functions that mutate through a `RefCell`
  thread the `Store` explicitly.
* Rust `u8` arithmetic wraps modulo 256 where the source can underflow
  (`next_row` on a dark pawn, `half_move_amount -= 1`).
* `Vec::splice` is modelled by `listSplice`, so the source's
  `splice(y..y, None)` in `Board::remove_piece` keeps its actual
  (no-op) semantics instead of the intended removal.
* Partial functions (`unwrap` panics) become `Option` results.
* Rust `PartialEq` on `Rc<RefCell<BoardPiece>>` compares the pointed-to
  values; `BoardPiece`'s `PartialEq` compares algebraic short code
  (equivalently the piece type), out-of-game flag, color and coordinate,
  and ignores `has_moved`.  `BoardPiece.rustEq` reproduces this.
-/

set_option maxRecDepth 10000

namespace EnCroissant

/-- A square of the chess board; the source stores two `u8` fields.
Mirrors `ecr_shared::coordinate::Coordinate`. -/
structure Coordinate where
  x : Nat
  y : Nat
deriving DecidableEq, Repr

/-- Source: `ecr_shared::pieces::PieceColor`. -/
inductive PieceColor where
  | Light
  | Dark
deriving DecidableEq, Repr

/-- Source: `PieceColor::get_opponent`. -/
def PieceColor.get_opponent : PieceColor → PieceColor
  | PieceColor.Light => PieceColor.Dark
  | PieceColor.Dark => PieceColor.Light

/-- Source: `ecr_shared::pieces::PieceType`. -/
inductive PieceType where
  | Pawn
  | Knight
  | Bishop
  | Rook
  | Queen
  | King
deriving DecidableEq, Repr

/-- The algebraic short code of a piece type
(`PieceType::get_shortcode_algebraic`). -/
def PieceType.get_shortcode_algebraic : PieceType → String
  | PieceType.Pawn => ""
  | PieceType.Knight => "N"
  | PieceType.Bishop => "B"
  | PieceType.Rook => "R"
  | PieceType.Queen => "Q"
  | PieceType.King => "K"

/-- Source: `Piece::get_value` as implemented by the six piece structs in
`ecr_engine/src/pieces/{pawn,knight,bishop,rook,queen,king}.rs`. -/
def PieceType.get_value : PieceType → Nat
  | PieceType.Pawn => 10
  | PieceType.Knight => 30
  | PieceType.Bishop => 35
  | PieceType.Rook => 50
  | PieceType.Queen => 90
  | PieceType.King => 20

/-- Source: `ecr_engine::pieces::BoardPiece`: a piece record as stored behind one
`Rc<RefCell<_>>` cell.  The dynamic `Box<dyn Piece>` is a closed set of six
stateless structs, so it is represented by its `PieceType`. -/
structure BoardPiece where
  pieceType : PieceType
  color : PieceColor
  coordinate : Coordinate
  out_of_game : Bool
  has_moved : Bool
deriving DecidableEq, Repr

/-- Source: `BoardPiece::new_from_type`: fresh pieces are in game and unmoved. -/
def BoardPiece.new_from_type (t : PieceType) (c : Coordinate) (col : PieceColor) :
    BoardPiece :=
  { pieceType := t, color := col, coordinate := c, out_of_game := false,
    has_moved := false }

/-- The `PartialEq` implementation of `BoardPiece`: pieces are equal when
their algebraic short codes (equivalently, since the six codes are
distinct, their types), out-of-game flags, colors and coordinates agree;
`has_moved` is ignored.  `Rc<RefCell<BoardPiece>>` equality delegates to
this value comparison. -/
def BoardPiece.rustEq (a b : BoardPiece) : Bool :=
  a.out_of_game == b.out_of_game && a.pieceType == b.pieceType &&
    a.color == b.color && a.coordinate == b.coordinate

/-- Identity of one `Rc<RefCell<BoardPiece>>` allocation: an index into
the piece store. -/
abbrev PieceId := Nat

/-- The heap of piece records.  `Rc::new` allocates at the end. -/
abbrev Store := List BoardPiece

/-- Dereference a piece handle.  In Rust this cannot fail; ids handed out
by `add_piece` are always in range, so out-of-range ids (never produced
by the embedded operations) default to a junk pawn. -/
def Store.pieceAt (s : Store) (i : PieceId) : BoardPiece :=
  s.getD i (BoardPiece.new_from_type PieceType.Pawn ⟨0, 0⟩ PieceColor.Light)

/-- Source: `Vec::splice(start..stop, replacement)`: remove the elements of the
range and insert the replacement there.  In particular an empty range
`y..y` removes nothing. -/
def listSplice (l : List α) (start stop : Nat) (repl : List α) : List α :=
  l.take start ++ repl ++ l.drop stop

/-- Source: `ecr_engine::move_gen::Capture`. -/
structure Capture where
  piece_type : PieceType
  target : Coordinate
deriving DecidableEq, Repr

/-- Source: `ecr_engine::move_gen::BasicMove`. -/
structure BasicMove where
  «to» : Coordinate
  capture : Option Capture
deriving DecidableEq, Repr

/-- Source: `BasicMove::new_move`. -/
def BasicMove.new_move (t : Coordinate) : BasicMove :=
  ⟨t, none⟩

/-- Source: `BasicMove::new_capture`. -/
def BasicMove.new_capture (t : Coordinate) (pt : PieceType) : BasicMove :=
  ⟨t, some { piece_type := pt, target := t }⟩

/-- Source: `ecr_engine::move_gen::CastleMoveType`. -/
inductive CastleMoveType where
  | LightKingSide
  | LightQueenSide
  | DarkKingSide
  | DarkQueenSide
deriving DecidableEq, Repr

/-- Source: `ecr_engine::move_gen::CastleMove`. -/
structure CastleMove where
  move_type : CastleMoveType
deriving DecidableEq, Repr

/-- Source: `ecr_shared::board::BoardCastleState`. -/
structure BoardCastleState where
  light_king_side : Bool
  light_queen_side : Bool
  dark_king_side : Bool
  dark_queen_side : Bool
deriving DecidableEq, Repr

/-- Source: `BoardCastleState::default()`: every castle action possible. -/
def BoardCastleState.default : BoardCastleState :=
  { light_king_side := true, light_queen_side := true,
    dark_king_side := true, dark_queen_side := true }

/-- Modelled from the spec: `BoardCastleState::empty()` is called by
`Board::castle` but is not under `src/`.  By its name and nullary
signature it is the state with no castle right set. -/
def BoardCastleState.empty : BoardCastleState :=
  { light_king_side := false, light_queen_side := false,
    dark_king_side := false, dark_queen_side := false }

/-- Source: `ecr_engine::board::ThreatenedState`: how many times each team
threatens a square. -/
structure ThreatenedState where
  threatened_light : Nat
  threatened_dark : Nat
deriving DecidableEq, Repr

/-- Modelled from the spec: the en-passant state
`{target_square, actual_pawn_square}` ("these differ because the captured
pawn is not on the destination square").  The struct itself is not under
`src/`; its two fields are read as `.target_square` in
`move_gen/generation.rs` and `.actual_square` in `movement.rs`. -/
structure EnPassant where
  target_square : Coordinate
  actual_square : Coordinate
deriving DecidableEq, Repr

/-- Source: `ecr_engine::board::Board`, with the piece cells replaced by ids into
the shared `Store`.  `moves` (the played-move log) is never read by the
embedded operations and is omitted. -/
structure Board where
  board : List (List (Option PieceId))
  pieces : List PieceId
  to_move : PieceColor
  move_number : Nat
  half_move_amount : Nat
  castle_state : BoardCastleState
  en_passant_target : Option EnPassant
  threatened_state : List (List ThreatenedState)
deriving DecidableEq, Repr

/-- Source: `Board::get_at`: `self.board.get(x)?.get(y)?`, then the square's
`Option` content. -/
def Board.get_at (b : Board) (c : Coordinate) : Option PieceId :=
  match b.board.get? c.x with
  | none => none
  | some column =>
    match column.get? c.y with
    | none => none
    | some square => square

/-- Source: `Board::get_en_passant_target`. -/
def Board.get_en_passant_target (b : Board) : Option EnPassant :=
  b.en_passant_target

/-- Source: `Board::add_piece`: allocate the piece in the store, splice the new
handle over the grid square (`y..=y`), and push it onto the piece list. -/
def Board.add_piece (s : Store) (b : Board) (p : BoardPiece) : Store × Board :=
  let x := p.coordinate.x
  let y := p.coordinate.y
  let i : PieceId := s.length
  let s' := s ++ [p]
  let column := b.board.getD x []
  let column' := listSplice column y (y + 1) [some i]
  ⟨s', { b with board := b.board.set x column', pieces := b.pieces ++ [i] }⟩

/-- Source: `Board::remove_piece`: splices the *empty* range `y..y` with an empty
replacement, so the grid is in fact left unchanged. -/
def Board.remove_piece (b : Board) (target : Coordinate) : Board :=
  let column := b.board.getD target.x []
  let column' := listSplice column target.y target.y []
  { b with board := b.board.set target.x column' }

/-- Source: `Board::get_threatened_state` (named `is_threatened` in the older
`board.rs`): read one cell of the threat grid.  The source unwraps; the
embedded operations only read squares of the 8x8 grid. -/
def Board.get_threatened_state (b : Board) (c : Coordinate) : ThreatenedState :=
  (b.threatened_state.getD c.x []).getD c.y ⟨0, 0⟩

/-- Source: `Board::set_threatened`: splice one cell of the threat grid
(`y..=y`). -/
def Board.set_threatened (b : Board) (c : Coordinate) (st : ThreatenedState) :
    Board :=
  let column := b.threatened_state.getD c.x []
  let column' := listSplice column c.y (c.y + 1) [st]
  { b with threatened_state := b.threatened_state.set c.x column' }

/-- Modelled from the spec: `Board::add_threat`, called by
`calculate_team_threatened_state`, is not under `src/`; per §4.2 it
increments the destination square's counter for the given color. -/
def Board.add_threat (b : Board) (c : Coordinate) (team : PieceColor) : Board :=
  let st := b.get_threatened_state c
  match team with
  | PieceColor.Light =>
    b.set_threatened c { st with threatened_light := st.threatened_light + 1 }
  | PieceColor.Dark =>
    b.set_threatened c { st with threatened_dark := st.threatened_dark + 1 }

/-- Modelled from the spec: `Board::remove_all_threats`, called by
`pre_move`, is not under `src/`; per §4.4 step (1) it invalidates
(resets) the threatened grid. -/
def Board.remove_all_threats (b : Board) : Board :=
  { b with threatened_state := b.threatened_state.map (·.map fun _ => ⟨0, 0⟩) }

/-! ## Move-generation utilities (`move_gen/utils.rs`, `move_gen/directions.rs`) -/

/-- Source: `move_gen/mod.rs` `Directions`: linear and diagonal directions. -/
inductive Directions where
  | N
  | E
  | S
  | W
  | NW
  | NE
  | SE
  | SW
deriving DecidableEq, Repr

/-- Source: `move_gen/mod.rs` `KnightDirections`. -/
inductive KnightDirections where
  | WN
  | EN
  | ES
  | WS
  | NW
  | NE
  | SE
  | SW
deriving DecidableEq, Repr

/-- Source: `move_gen/utils.rs` `piece_on_square`: the occupant of a square. -/
def piece_on_square (b : Board) (square : Coordinate) : Option PieceId :=
  b.get_at square

/-- Source: `move_gen/utils.rs` `next_row`: the next row for the team, `step`
rows ahead.  `u8` wrapping semantics for the dark-side subtraction (a
release build wraps; a debug build would panic on underflow). -/
def next_row (y : Nat) (team_color : PieceColor) (step : Nat) : Nat :=
  match team_color with
  | PieceColor.Light => (y + step) % 256
  | PieceColor.Dark => (y + 256 - step) % 256

/-- Source: `move_gen/utils.rs` `piece_in_front`: whether the square `step` rows
ahead of `from` is occupied. -/
def piece_in_front (b : Board) («from» : Coordinate) (team_color : PieceColor)
    (step : Nat) : Bool :=
  (piece_on_square b ⟨«from».x, next_row «from».y team_color step⟩).isSome

/-- Source: `move_gen/utils.rs` `check_square`: `(occupant type, is enemy)`. -/
def check_square (s : Store) (b : Board) (square : Coordinate)
    (team_color : PieceColor) : Option PieceType × Bool :=
  match piece_on_square b square with
  | some i =>
    if (s.pieceAt i).color = team_color then ((some (s.pieceAt i).pieceType), false)
    else ((some (s.pieceAt i).pieceType), true)
  | none => (none, false)

/-- Source: `move_gen/utils.rs` `coordinate_check`: wraps `check_square`. -/
def coordinate_check (s : Store) (b : Board) (x y : Nat)
    (team_color : PieceColor) : Option PieceType × Bool :=
  check_square s b ⟨x, y⟩ team_color

/-- The body of the `check_square_in_loop!` macro: given the already
explored continuation of the ray, an own-colored occupant stops the ray
emitting nothing, an enemy occupant emits a capture and stops, and an
empty square emits a quiet move and continues. -/
def check_square_in_loop (s : Store) (b : Board) (x y : Nat)
    (team_color : PieceColor) (rest : List BasicMove) : List BasicMove :=
  match coordinate_check s b x y team_color with
  | (some t, enemy) =>
    if enemy then [⟨⟨x, y⟩, some ⟨t, ⟨x, y⟩⟩⟩] else []
  | (none, _) => ⟨⟨x, y⟩, none⟩ :: rest

/-- The body of the `check_this_move!` macro: like
`check_square_in_loop` for a single candidate square. -/
def check_this_move (s : Store) (b : Board) (x y : Nat)
    (team_color : PieceColor) : List BasicMove :=
  match coordinate_check s b x y team_color with
  | (some t, enemy) =>
    if enemy then [⟨⟨x, y⟩, some ⟨t, ⟨x, y⟩⟩⟩] else []
  | (none, _) => [⟨⟨x, y⟩, none⟩]

/-- Source: `move_gen/utils.rs` `DistanceToBorder`. -/
structure DistanceToBorder where
  up : Nat
  right : Nat
  down : Nat
  left : Nat
deriving DecidableEq, Repr

/-- Source: `move_gen/utils.rs` `distance_to_border`. -/
def distance_to_border (coords : Coordinate) : DistanceToBorder :=
  ⟨7 - coords.y, 7 - coords.x, coords.y, coords.x⟩

/-- Source: `move_gen/utils.rs` `no_piece_in_the_way`: scans `range` squares from
`start` (inclusive) in a linear direction; diagonal directions hit a
`todo!()` panic in the source and are never used by `get_castle_moves`. -/
def no_piece_in_the_way (b : Board) (start : Coordinate) (d : Directions)
    (range : Nat) : Bool :=
  match d with
  | Directions.N =>
    (List.range range).all fun inc => !(piece_on_square b ⟨start.x, start.y + inc⟩).isSome
  | Directions.E =>
    (List.range range).all fun inc => !(piece_on_square b ⟨start.x + inc, start.y⟩).isSome
  | Directions.S =>
    (List.range range).all fun dec => !(piece_on_square b ⟨start.x, start.y - dec⟩).isSome
  | Directions.W =>
    (List.range range).all fun dec => !(piece_on_square b ⟨start.x - dec, start.y⟩).isSome
  | _ => false

/-! ## Sliding-move exploration (`move_gen/generation.rs` `explore_direction`)

Each arm of `explore_direction` is a `while` loop that moves one square
per iteration and stops at the border; the guard (`y < 7`, `x > 0 && y < 7`,
...) bounds the iteration count exactly (`7 - y`, `min x (7 - y)`, ...),
so each loop is a structural recursion on that count, stepping the
coordinate and running the `check_square_in_loop!` body. -/

/-- One `while` loop of `explore_direction`: `step` moves the coordinate
one square in the loop's direction, `fuel` is the number of iterations
the loop guard allows from the starting square. -/
def explore_loop (s : Store) (b : Board) (team_color : PieceColor)
    (step : Nat × Nat → Nat × Nat) : Nat × Nat → Nat → List BasicMove
  | _, 0 => []
  | p, Nat.succ fuel =>
    let q := step p
    check_square_in_loop s b q.1 q.2 team_color
      (explore_loop s b team_color step q fuel)

/-- Source: `move_gen/generation.rs` `explore_direction`: walk one of the eight
rays; the guard of each `while` loop is rendered as its exact iteration
bound. -/
def explore_direction (s : Store) (b : Board) (direction : Directions)
    (from_x from_y : Nat) (team_color : PieceColor) : List BasicMove :=
  match direction with
  | Directions.N =>
    explore_loop s b team_color (fun p => (p.1, p.2 + 1)) (from_x, from_y)
      (7 - from_y)
  | Directions.E =>
    explore_loop s b team_color (fun p => (p.1 + 1, p.2)) (from_x, from_y)
      (7 - from_x)
  | Directions.S =>
    explore_loop s b team_color (fun p => (p.1, p.2 - 1)) (from_x, from_y)
      from_y
  | Directions.W =>
    explore_loop s b team_color (fun p => (p.1 - 1, p.2)) (from_x, from_y)
      from_x
  | Directions.NW =>
    explore_loop s b team_color (fun p => (p.1 - 1, p.2 + 1)) (from_x, from_y)
      (min from_x (7 - from_y))
  | Directions.NE =>
    explore_loop s b team_color (fun p => (p.1 + 1, p.2 + 1)) (from_x, from_y)
      (min (7 - from_x) (7 - from_y))
  | Directions.SE =>
    explore_loop s b team_color (fun p => (p.1 + 1, p.2 - 1)) (from_x, from_y)
      (min (7 - from_x) from_y)
  | Directions.SW =>
    explore_loop s b team_color (fun p => (p.1 - 1, p.2 - 1)) (from_x, from_y)
      (min from_x from_y)

/-- Source: `move_gen/generation.rs` `linear_moves`: the N, E, S, W rays. -/
def linear_moves (s : Store) (b : Board) (start : Coordinate)
    (team_color : PieceColor) : List BasicMove :=
  explore_direction s b Directions.N start.x start.y team_color ++
    explore_direction s b Directions.E start.x start.y team_color ++
    explore_direction s b Directions.S start.x start.y team_color ++
    explore_direction s b Directions.W start.x start.y team_color

/-- Source: `move_gen/generation.rs` `diagonal_moves`: the NW, NE, SE, SW rays. -/
def diagonal_moves (s : Store) (b : Board) (start : Coordinate)
    (team_color : PieceColor) : List BasicMove :=
  explore_direction s b Directions.NW start.x start.y team_color ++
    explore_direction s b Directions.NE start.x start.y team_color ++
    explore_direction s b Directions.SE start.x start.y team_color ++
    explore_direction s b Directions.SW start.x start.y team_color

/-! ## Pawn, knight, king and castle generation (`move_gen/generation.rs`) -/

/-- Source: `move_gen/generation.rs` `pawn_moves`.  Note two faithful oddities of
the source: only file 0 guards the left diagonal (a pawn on file 7 also
probes the off-board file 8), and the en-passant capture's `target` is
the hardcoded square `(6, 1)`. -/
def pawn_moves (s : Store) (b : Board) (start : Coordinate)
    (team_color : PieceColor) (has_moved : Bool) : List BasicMove :=
  let from_x := start.x
  let from_y := start.y
  let next_r := next_row from_y team_color 1
  let forward : List BasicMove :=
    if !(piece_in_front b start team_color 1) then
      ⟨⟨from_x, next_r⟩, none⟩ ::
        (if !(piece_in_front b start team_color 2) && !has_moved then
          [⟨⟨from_x, next_row from_y team_color 2⟩, none⟩]
        else [])
    else []
  let capture_diagonal : List Coordinate :=
    if from_x = 0 then [⟨from_x + 1, next_r⟩]
    else [⟨from_x - 1, next_r⟩, ⟨from_x + 1, next_r⟩]
  forward ++ capture_diagonal.flatMap (fun possible_capture =>
    (match piece_on_square b possible_capture with
     | some e =>
       if (s.pieceAt e).color ≠ team_color then
         [⟨possible_capture, some ⟨(s.pieceAt e).pieceType, possible_capture⟩⟩]
       else []
     | none => []) ++
    (match b.get_en_passant_target with
     | some t =>
       if possible_capture = t.target_square then
         [⟨possible_capture, some ⟨PieceType.Pawn, ⟨6, 1⟩⟩⟩]
       else []
     | none => []))

/-- Source: `move_gen/generation.rs` `explore_knight_moves`: one knight offset,
assumed pre-checked against the border. -/
def explore_knight_moves (s : Store) (b : Board) (start : Coordinate)
    (team_color : PieceColor) (direction : KnightDirections) : List BasicMove :=
  let from_x := start.x
  let from_y := start.y
  match direction with
  | KnightDirections.WN => check_this_move s b (from_x - 2) (from_y + 1) team_color
  | KnightDirections.EN => check_this_move s b (from_x + 2) (from_y + 1) team_color
  | KnightDirections.ES => check_this_move s b (from_x + 2) (from_y - 1) team_color
  | KnightDirections.WS => check_this_move s b (from_x - 2) (from_y - 1) team_color
  | KnightDirections.NW => check_this_move s b (from_x - 1) (from_y + 2) team_color
  | KnightDirections.NE => check_this_move s b (from_x + 1) (from_y + 2) team_color
  | KnightDirections.SE => check_this_move s b (from_x + 1) (from_y - 2) team_color
  | KnightDirections.SW => check_this_move s b (from_x - 1) (from_y - 2) team_color

/-- Source: `move_gen/generation.rs` `knight_moves`: build the queue of safe
directions from the border distances, then explore each. -/
def knight_moves (s : Store) (b : Board) (start : Coordinate)
    (team_color : PieceColor) : List BasicMove :=
  let d := distance_to_border start
  let queue : List KnightDirections :=
    (if d.right > 1 then
      (if d.down > 0 then [KnightDirections.ES] else []) ++
        (if d.up > 0 then [KnightDirections.EN] else [])
    else []) ++
    (if d.up > 1 then
      (if d.right > 0 then [KnightDirections.NE] else []) ++
        (if d.left > 0 then [KnightDirections.NW] else [])
    else []) ++
    (if d.left > 1 then
      (if d.up > 0 then [KnightDirections.WN] else []) ++
        (if d.down > 0 then [KnightDirections.WS] else [])
    else []) ++
    (if d.down > 1 then
      (if d.left > 0 then [KnightDirections.SW] else []) ++
        (if d.right > 0 then [KnightDirections.SE] else [])
    else [])
  queue.flatMap (explore_knight_moves s b start team_color ·)

/-- Source: `move_gen/mod.rs` `BasicMove::get_is_threatened`: whether the target
square carries an opponent-threat count. -/
def BasicMove.get_is_threatened (m : BasicMove) (b : Board)
    (team : PieceColor) : Bool :=
  let state := b.get_threatened_state m.to
  match team with
  | PieceColor.Light => state.threatened_dark > 0
  | PieceColor.Dark => state.threatened_light > 0

/-- Source: `move_gen/generation.rs` `explore_king_moves`: one king offset, then
drop destinations threatened by the opponent. -/
def explore_king_moves (s : Store) (b : Board) (start : Coordinate)
    (team_color : PieceColor) (direction : Directions) : List BasicMove :=
  let from_x := start.x
  let from_y := start.y
  let result : List BasicMove :=
    match direction with
    | Directions.N => check_this_move s b from_x (from_y + 1) team_color
    | Directions.E => check_this_move s b (from_x + 1) from_y team_color
    | Directions.S => check_this_move s b from_x (from_y - 1) team_color
    | Directions.W => check_this_move s b (from_x - 1) from_y team_color
    | Directions.NW => check_this_move s b (from_x - 1) (from_y + 1) team_color
    | Directions.NE => check_this_move s b (from_x + 1) (from_y + 1) team_color
    | Directions.SE => check_this_move s b (from_x + 1) (from_y - 1) team_color
    | Directions.SW => check_this_move s b (from_x - 1) (from_y - 1) team_color
  result.filter fun m => !(m.get_is_threatened b team_color)

/-- Source: `move_gen/generation.rs` `king_moves`: build the queue of in-board
directions, then explore each (with the threat filter). -/
def king_moves (s : Store) (b : Board) (start : Coordinate)
    (team_color : PieceColor) : List BasicMove :=
  let d := distance_to_border start
  let queue : List Directions :=
    (if d.right > 0 then
      Directions.E :: (if d.up > 0 then [Directions.NE] else [])
    else []) ++
    (if d.up > 0 then
      Directions.N :: (if d.left > 0 then [Directions.NW] else [])
    else []) ++
    (if d.left > 0 then
      Directions.W :: (if d.down > 0 then [Directions.SW] else [])
    else []) ++
    (if d.down > 0 then
      Directions.S :: (if d.right > 0 then [Directions.SE] else [])
    else [])
  queue.flatMap (explore_king_moves s b start team_color ·)

/-- Source: `move_gen/generation.rs` `get_castle_moves`.  Note the faithful
asymmetry of the source: for dark queen-side the threat test reads
squares `(3,7)` and `(4,7)`, not the king's landing square `(2,7)`. -/
def get_castle_moves (castle_state : BoardCastleState) (team : PieceColor)
    (b : Board) : List CastleMove :=
  match team with
  | PieceColor.Light =>
    (if castle_state.light_queen_side &&
        no_piece_in_the_way b ⟨3, 0⟩ Directions.W 3 &&
        (b.get_threatened_state ⟨3, 0⟩).threatened_dark = 0 &&
        (b.get_threatened_state ⟨2, 0⟩).threatened_dark = 0 then
      [⟨CastleMoveType.LightQueenSide⟩]
    else []) ++
    (if castle_state.light_king_side &&
        no_piece_in_the_way b ⟨5, 0⟩ Directions.E 2 &&
        (b.get_threatened_state ⟨5, 0⟩).threatened_dark = 0 &&
        (b.get_threatened_state ⟨6, 0⟩).threatened_dark = 0 then
      [⟨CastleMoveType.LightKingSide⟩]
    else [])
  | PieceColor.Dark =>
    (if castle_state.dark_queen_side &&
        no_piece_in_the_way b ⟨3, 7⟩ Directions.W 3 &&
        (b.get_threatened_state ⟨3, 7⟩).threatened_light = 0 &&
        (b.get_threatened_state ⟨4, 7⟩).threatened_light = 0 then
      [⟨CastleMoveType.DarkQueenSide⟩]
    else []) ++
    (if castle_state.dark_king_side &&
        no_piece_in_the_way b ⟨5, 7⟩ Directions.E 2 &&
        (b.get_threatened_state ⟨5, 7⟩).threatened_light = 0 &&
        (b.get_threatened_state ⟨6, 7⟩).threatened_light = 0 then
      [⟨CastleMoveType.DarkKingSide⟩]
    else [])

/-- Source: `Piece::get_pseudo_legal_moves`: the per-type dispatch implemented by
the six piece structs (`pieces/{pawn,knight,bishop,rook,queen,king}.rs`);
the queen concatenates linear and diagonal moves. -/
def get_pseudo_legal_moves (t : PieceType) (s : Store) (b : Board)
    (piece_coordinate : Coordinate) (piece_color : PieceColor)
    (has_moved : Bool) : List BasicMove :=
  match t with
  | PieceType.Pawn => pawn_moves s b piece_coordinate piece_color has_moved
  | PieceType.Knight => knight_moves s b piece_coordinate piece_color
  | PieceType.Bishop => diagonal_moves s b piece_coordinate piece_color
  | PieceType.Rook => linear_moves s b piece_coordinate piece_color
  | PieceType.Queen =>
    linear_moves s b piece_coordinate piece_color ++
      diagonal_moves s b piece_coordinate piece_color
  | PieceType.King => king_moves s b piece_coordinate piece_color

/-! ## Board-level move listing and the threat engine (`movement.rs`) -/

/-- Source: `ecr_engine::move::Moves`: the possible moves of one piece, with its
starting coordinate. -/
structure Moves where
  «from» : Coordinate
  basic_move : List BasicMove
deriving DecidableEq, Repr

/-- Source: `movement.rs` `Board::get_all_pieces`: the handles of all pieces of
one color, in piece-list order. -/
def Board.get_all_pieces (s : Store) (b : Board) (target_color : PieceColor) :
    List PieceId :=
  b.pieces.filter fun e => (s.pieceAt e).color = target_color

/-- Source: `movement.rs` `Board::get_moves`: pseudo-legal moves of a list of
pieces, skipping pieces with no moves. -/
def Board.get_moves (s : Store) (b : Board) (pieces : List PieceId) :
    List Moves :=
  pieces.flatMap fun square_inner =>
    let p := s.pieceAt square_inner
    let possible_moves :=
      get_pseudo_legal_moves p.pieceType s b p.coordinate p.color p.has_moved
    if possible_moves.isEmpty then []
    else [⟨p.coordinate, possible_moves⟩]

/-- Source: `movement.rs` `Board::get_pseudo_legal_moves_util`: the pseudo-legal
moves of a specific team. -/
def Board.get_pseudo_legal_moves_util (s : Store) (b : Board)
    (team_color : PieceColor) : List Moves :=
  b.get_moves s (b.get_all_pieces s team_color)

/-- Source: `movement.rs` `Board::calculate_team_threatened_state`: increment the
destination counter of every pseudo-legal move of the team.  The move
list is computed up front, then the counters are folded in. -/
def Board.calculate_team_threatened_state (s : Store) (b : Board)
    (team_color : PieceColor) : Board :=
  (b.get_pseudo_legal_moves_util s team_color).foldl
    (fun acc moves =>
      moves.basic_move.foldl (fun acc2 bm => acc2.add_threat bm.to team_color) acc)
    b

/-- Source: `movement.rs` `Board::calculate_threatened_states`: light first, then
dark on the already-updated grid. -/
def Board.calculate_threatened_states (s : Store) (b : Board) : Board :=
  (b.calculate_team_threatened_state s PieceColor.Light).calculate_team_threatened_state
    s PieceColor.Dark

/-! ## The mutation engine (`movement.rs` `do_blunder` and helpers) -/

/-- Source: `movement.rs` `Board::check_en_passant`: is the move's target the
current en-passant target square? -/
def Board.check_en_passant (b : Board) (target : Coordinate) : Bool :=
  match b.get_en_passant_target with
  | some coordinate => coordinate.target_square = target
  | none => false

/-- Source: `movement.rs` `Board::is_pawn_promotion`: the target row is a back
rank. -/
def Board.is_pawn_promotion (_b : Board) (target : Coordinate) : Bool :=
  target.y = 7 || target.y = 0

/-- Source: `movement.rs` `Board::count_half_moves`: reset on pawn moves and
captures, else increment (`u8` wrap). -/
def Board.count_half_moves (b : Board) (piece_type : PieceType)
    (capture : Bool) : Board :=
  let b :=
    match piece_type with
    | PieceType.Pawn => { b with half_move_amount := 0 }
    | _ => { b with half_move_amount := (b.half_move_amount + 1) % 256 }
  if capture then { b with half_move_amount := 0 } else b

/-- Source: `movement.rs` `Board::capture_piece`: sets the *given handle* out of
game, retains the piece list against that handle's value, and calls the
(no-op) `remove_piece` on the target square.  `do_blunder` passes the
moving piece's handle here, not the captured piece's. -/
def Board.capture_piece (s : Store) (b : Board) (target : PieceId)
    (target_square : Coordinate) : Store × Board :=
  let s' := s.set target { s.pieceAt target with out_of_game := true }
  let b' := { b with
    pieces := b.pieces.filter fun inner =>
      !(BoardPiece.rustEq (Store.pieceAt s' inner) (Store.pieceAt s' target)) }
  ⟨s', b'.remove_piece target_square⟩

/-- Source: `movement.rs` `Board::pre_move`: reset all threats, call the (no-op)
`remove_piece` on the start square, and retain the piece list against the
moving handle's current value. -/
def Board.pre_move (s : Store) (b : Board) (start : Coordinate)
    (inner : PieceId) : Board :=
  let b := b.remove_all_threats
  let b := b.remove_piece start
  { b with
    pieces := b.pieces.filter fun piece =>
      !(BoardPiece.rustEq (s.pieceAt piece) (s.pieceAt inner)) }

/-- Source: `movement.rs` `Board::do_blunder`: commit a `BasicMove`.  Mutations
through the shared piece cells thread the store; the `unwrap` on an empty
start square becomes `none`. -/
def Board.do_blunder (s : Store) (b : Board) (start : Coordinate)
    (basic_move : BasicMove) : Option (Store × Board) :=
  match b.get_at start with
  | none => none
  | some inner =>
    -- `MoveProperties::get_properties` on a clone of the board
    let piece_type := (s.pieceAt inner).pieceType
    let target_square := basic_move.to
    let capture := basic_move.capture
    let promotion := piece_type = PieceType.Pawn && b.is_pawn_promotion target_square
    let en_passant := piece_type = PieceType.Pawn && b.check_en_passant target_square
    let b := b.pre_move s start inner
    -- update the shared cell's coordinate
    let s := s.set inner { s.pieceAt inner with coordinate := target_square }
    let piece_to_add := Store.pieceAt s inner
    let piece_to_add :=
      if promotion then
        BoardPiece.new_from_type PieceType.Queen target_square piece_to_add.color
      else piece_to_add
    let (s, b) :=
      match capture with
      | some cap =>
        let target :=
          if en_passant then
            match b.get_en_passant_target with
            | some e => e.actual_square
            | none => cap.target
          else cap.target
        b.capture_piece s inner target
      | none => ⟨s, b⟩
    let piece_to_add := { piece_to_add with has_moved := true }
    let (s, b) := b.add_piece s piece_to_add
    let b :=
      if piece_to_add.color = PieceColor.Dark then
        { b with move_number := b.move_number + 1 }
      else b
    let b := b.count_half_moves piece_type capture.isSome
    let b := { b with to_move := b.to_move.get_opponent }
    some ⟨s, b.calculate_threatened_states s⟩

/-- Source: `movement.rs` `Board::move_on_cloned_board`: `clone` shares the piece
cells (the store), so only the board value is copied. -/
def Board.move_on_cloned_board (s : Store) (b : Board) (start : Coordinate)
    (basic_move : BasicMove) : Option (Store × Board) :=
  b.do_blunder s start basic_move

/-- Source: `move.rs` `Moves::contains_king`: does any move capture a king? -/
def Moves.contains_king (m : Moves) : Bool :=
  m.basic_move.any fun basic_move =>
    match basic_move.capture with
    | some capture => capture.piece_type = PieceType.King
    | none => false

/-- The loop of `move.rs` `Moves::contains_check`: probe each move on a
cloned board, then ask whether the piece, relocated to the move's target,
could capture a king — generating its moves against the *original* board
`b` passed to `contains_check`.  The probes mutate the shared store. -/
def contains_check_go (s : Store) (b : Board) («from» : Coordinate) :
    List BasicMove → Option (Bool × Store)
  | [] => some (false, s)
  | mv :: rest =>
    match Board.move_on_cloned_board s b «from» mv with
    | none => none
    | some (s1, board_clone) =>
      match board_clone.get_at mv.to with
      | none => none
      | some inner =>
        let color := (s1.pieceAt inner).color
        let new_move :=
          get_pseudo_legal_moves (s1.pieceAt inner).pieceType s1 b mv.to color true
        let new_moves : Moves := ⟨mv.to, new_move⟩
        if new_moves.contains_king then some (true, s1)
        else contains_check_go s1 b «from» rest

/-- Source: `move.rs` `Moves::contains_check`. -/
def Moves.contains_check (m : Moves) (s : Store) (b : Board) :
    Option (Bool × Store) :=
  contains_check_go s b m.from m.basic_move

/-- The loop of `movement.rs` `Board::check_checker` over the move
groups. -/
def check_checker_go (s : Store) (b : Board) :
    List Moves → Option (Bool × Store)
  | [] => some (false, s)
  | moves :: rest =>
    match moves.contains_check s b with
    | none => none
    | some (true, s1) => some (true, s1)
    | some (false, s1) => check_checker_go s1 b rest

/-- Source: `movement.rs` `Board::check_checker`: does the given team have a
"check" in the sense of `contains_check`?  The move groups are computed
once up front. -/
def Board.check_checker (s : Store) (b : Board) (team : PieceColor) :
    Option (Bool × Store) :=
  check_checker_go s b (b.get_pseudo_legal_moves_util s team)

/-- Source: `movement.rs` `Board::check_if_legal_move`: commit the candidate on a
(store-sharing) clone, then negate `check_checker` for the side then to
move. -/
def Board.check_if_legal_move (s : Store) (b : Board) (start : Coordinate)
    (basic_move : BasicMove) : Option (Bool × Store) :=
  match b.do_blunder s start basic_move with
  | none => none
  | some (s1, future_board) =>
    match future_board.check_checker s1 future_board.to_move with
    | none => none
    | some (r, s2) => some (!r, s2)

/-- Source: `movement.rs` `Board::castle`: two `do_blunder` commits (king then
rook) on the variant's fixed squares — including the source's misplaced
rook targets for the light king side (`(4,0)`), light queen side
(`(0,3)`) and dark queen side (`(3,0)`) — then compensate the two counter
increments and clear the whole castle state. -/
def Board.castle (s : Store) (b : Board) (castle_move : CastleMove) :
    Option (Store × Board) :=
  let commits : Option (Store × Board) :=
    match castle_move.move_type with
    | CastleMoveType.LightKingSide =>
      match b.do_blunder s ⟨4, 0⟩ (BasicMove.new_move ⟨6, 0⟩) with
      | none => none
      | some (s1, b1) => b1.do_blunder s1 ⟨7, 0⟩ ⟨⟨4, 0⟩, none⟩
    | CastleMoveType.LightQueenSide =>
      match b.do_blunder s ⟨4, 0⟩ (BasicMove.new_move ⟨2, 0⟩) with
      | none => none
      | some (s1, b1) => b1.do_blunder s1 ⟨0, 0⟩ ⟨⟨0, 3⟩, none⟩
    | CastleMoveType.DarkKingSide =>
      match b.do_blunder s ⟨4, 7⟩ (BasicMove.new_move ⟨6, 7⟩) with
      | none => none
      | some (s1, b1) => b1.do_blunder s1 ⟨7, 7⟩ ⟨⟨5, 7⟩, none⟩
    | CastleMoveType.DarkQueenSide =>
      match b.do_blunder s ⟨4, 7⟩ (BasicMove.new_move ⟨2, 7⟩) with
      | none => none
      | some (s1, b1) => b1.do_blunder s1 ⟨0, 7⟩ ⟨⟨3, 0⟩, none⟩
  commits.map fun p =>
    ⟨p.1, { p.2 with
      half_move_amount := (p.2.half_move_amount + 255) % 256,
      move_number := p.2.move_number - 1,
      castle_state := BoardCastleState.empty }⟩

/-! ## The evaluator (`board.rs` `eval_board`) -/

/-- Source: `board.rs` `Board::get_team_pieces`: the handles of one team's
pieces. -/
def Board.get_team_pieces (s : Store) (b : Board) (team_color : PieceColor) :
    List PieceId :=
  b.pieces.filter fun piece => (s.pieceAt piece).color = team_color

/-- The accumulated `usize` value of a team's pieces in `eval_board`. -/
def Board.team_value (s : Store) (b : Board) (team_color : PieceColor) : Nat :=
  ((b.get_team_pieces s team_color).map
    fun piece => (s.pieceAt piece).pieceType.get_value).sum

/-- Source: `board.rs` `Board::eval_board`: the material difference
`value_light - value_dark` computed in `usize` arithmetic; the
subtraction underflows (panics) when dark's total exceeds light's, which
the embedding renders as `none`. -/
def Board.eval_board (s : Store) (b : Board) : Option Nat :=
  let value_light := b.team_value s PieceColor.Light
  let value_dark := b.team_value s PieceColor.Dark
  if value_dark ≤ value_light then some (value_light - value_dark) else none

/-! ## Concrete boards used by the claim theorems -/

/-- An 8x8 grid of empty squares. -/
def emptyGrid : List (List (Option PieceId)) :=
  List.replicate 8 (List.replicate 8 none)

/-- An 8x8 grid of zero threat counts. -/
def zeroThreats : List (List ThreatenedState) :=
  List.replicate 8 (List.replicate 8 ⟨0, 0⟩)

/-- Source: `Board::empty`: empty grid, light to move, move number 1, all castle
rights, no en-passant state, zero threats. -/
def Board.empty : Board :=
  ⟨emptyGrid, [], PieceColor.Light, 1, 0, BoardCastleState.default, none,
    zeroThreats⟩

/-- Build a position by adding pieces to the empty board, the way
`From<Fen> for Board` does. -/
def mkPosition (ps : List BoardPiece) : Store × Board :=
  ps.foldl (fun sb p => sb.2.add_piece sb.1 p) ⟨[], Board.empty⟩

/-- A position with an en-passant state: a dark pawn just advanced two
squares to `(0,4)` (skipping `(0,5)`), a light pawn stands on `(1,4)`. -/
def epPosition : Store × Board :=
  let sb := mkPosition
    [BoardPiece.new_from_type PieceType.Pawn ⟨0, 4⟩ PieceColor.Dark,
      BoardPiece.new_from_type PieceType.Pawn ⟨1, 4⟩ PieceColor.Light]
  ⟨sb.1, { sb.2 with en_passant_target := some ⟨⟨0, 5⟩, ⟨0, 4⟩⟩ }⟩

/-- An otherwise empty board whose threat grid records one light threat
on `(2,7)`, the square the dark king lands on when castling queen-side. -/
def dqsThreatBoard : Board :=
  Board.empty.set_threatened ⟨2, 7⟩ ⟨1, 0⟩

/-- A position with only a light king on `(4,0)` and a light rook on
`(7,0)`, ready for the light king-side castle. -/
def lksPosition : Store × Board :=
  mkPosition
    [BoardPiece.new_from_type PieceType.King ⟨4, 0⟩ PieceColor.Light,
      BoardPiece.new_from_type PieceType.Rook ⟨7, 0⟩ PieceColor.Light]

/-- A position with only a light king on `(4,0)` and a light rook on
`(0,0)`, ready for the light queen-side castle. -/
def lqsPosition : Store × Board :=
  mkPosition
    [BoardPiece.new_from_type PieceType.King ⟨4, 0⟩ PieceColor.Light,
      BoardPiece.new_from_type PieceType.Rook ⟨0, 0⟩ PieceColor.Light]

/-- A position with one light pawn on `(0,1)`. -/
def onePawnPosition : Store × Board :=
  mkPosition [BoardPiece.new_from_type PieceType.Pawn ⟨0, 1⟩ PieceColor.Light]

/-- A position with a light king on `(1,2)`, a light pawn on `(7,2)` and
a dark knight on `(0,0)`; the knight attacks the king's square. -/
def knightAttackPosition : Store × Board :=
  mkPosition
    [BoardPiece.new_from_type PieceType.King ⟨1, 2⟩ PieceColor.Light,
      BoardPiece.new_from_type PieceType.Pawn ⟨7, 2⟩ PieceColor.Light,
      BoardPiece.new_from_type PieceType.Knight ⟨0, 0⟩ PieceColor.Dark]

/-- A position with a light rook on `(0,0)` and a dark king on `(7,1)`;
the rook threatens `(7,0)`, a square the dark king could step to. -/
def rookCornerPosition : Store × Board :=
  mkPosition
    [BoardPiece.new_from_type PieceType.Rook ⟨0, 0⟩ PieceColor.Light,
      BoardPiece.new_from_type PieceType.King ⟨7, 1⟩ PieceColor.Dark]

/-- A position with only a dark queen on `(3,3)`. -/
def darkQueenPosition : Store × Board :=
  mkPosition [BoardPiece.new_from_type PieceType.Queen ⟨3, 3⟩ PieceColor.Dark]

/-! ## Claim-side definitions -/

/-- Source: `eval/utils.rs` `ThreatenedState::get_by_team`: the count of the
given team. -/
def ThreatenedState.get_by_team (st : ThreatenedState) (team : PieceColor) : Nat :=
  match team with
  | PieceColor.Light => st.threatened_light
  | PieceColor.Dark => st.threatened_dark

/-- The squares of a ray in order from the origin outward, as the claim
about sliding moves speaks of them. -/
def ray (d : Directions) (x y : Nat) : List Coordinate :=
  match d with
  | Directions.N => (List.range (7 - y)).map fun k => ⟨x, y + k + 1⟩
  | Directions.E => (List.range (7 - x)).map fun k => ⟨x + k + 1, y⟩
  | Directions.S => (List.range y).map fun k => ⟨x, y - k - 1⟩
  | Directions.W => (List.range x).map fun k => ⟨x - k - 1, y⟩
  | Directions.NW =>
    (List.range (min x (7 - y))).map fun k => ⟨x - k - 1, y + k + 1⟩
  | Directions.NE =>
    (List.range (min (7 - x) (7 - y))).map fun k => ⟨x + k + 1, y + k + 1⟩
  | Directions.SE =>
    (List.range (min (7 - x) y)).map fun k => ⟨x + k + 1, y - k - 1⟩
  | Directions.SW =>
    (List.range (min x y)).map fun k => ⟨x - k - 1, y - k - 1⟩

/-- The move list the sliding-ray claim describes, over an arbitrary
list of ray squares: a quiet move for every square of the empty prefix,
in ray order; nothing past the first occupied square; on the first
occupied square a capture if and only if the occupant is of the opposite
color. -/
def rayForm (s : Store) (b : Board) (team_color : PieceColor)
    (squares : List Coordinate) : List BasicMove :=
  ((squares.takeWhile fun c => (piece_on_square b c).isNone).map
      fun c => (⟨c, none⟩ : BasicMove))
    ++ ((squares.dropWhile fun c => (piece_on_square b c).isNone).head?.elim []
        fun c =>
          (piece_on_square b c).elim [] fun i =>
            if (Store.pieceAt s i).color = team_color then []
            else [⟨c, some ⟨(Store.pieceAt s i).pieceType, c⟩⟩])

/-- The squares visited by `explore_loop` with a given step function, in
order. -/
def coordPath (step : Nat × Nat → Nat × Nat) : Nat × Nat → Nat → List Coordinate
  | _, 0 => []
  | p, Nat.succ fuel => ⟨(step p).1, (step p).2⟩ :: coordPath step (step p) fuel

/-- Modelled from the spec (§4.2): king move generation "without the
king's self-check filter" — `explore_king_moves` minus its threat
filter.  Used only to state what claim C3 expects of the threat census. -/
def explore_king_moves_unfiltered (s : Store) (b : Board) (start : Coordinate)
    (team_color : PieceColor) (direction : Directions) : List BasicMove :=
  let from_x := start.x
  let from_y := start.y
  match direction with
  | Directions.N => check_this_move s b from_x (from_y + 1) team_color
  | Directions.E => check_this_move s b (from_x + 1) from_y team_color
  | Directions.S => check_this_move s b from_x (from_y - 1) team_color
  | Directions.W => check_this_move s b (from_x - 1) from_y team_color
  | Directions.NW => check_this_move s b (from_x - 1) (from_y + 1) team_color
  | Directions.NE => check_this_move s b (from_x + 1) (from_y + 1) team_color
  | Directions.SE => check_this_move s b (from_x + 1) (from_y - 1) team_color
  | Directions.SW => check_this_move s b (from_x - 1) (from_y - 1) team_color

/-- Modelled from the spec (§4.2): `king_moves` without the self-check
filter (claim-side definition for C3). -/
def king_moves_unfiltered (s : Store) (b : Board) (start : Coordinate)
    (team_color : PieceColor) : List BasicMove :=
  let d := distance_to_border start
  let queue : List Directions :=
    (if d.right > 0 then
      Directions.E :: (if d.up > 0 then [Directions.NE] else [])
    else []) ++
    (if d.up > 0 then
      Directions.N :: (if d.left > 0 then [Directions.NW] else [])
    else []) ++
    (if d.left > 0 then
      Directions.W :: (if d.down > 0 then [Directions.SW] else [])
    else []) ++
    (if d.down > 0 then
      Directions.S :: (if d.right > 0 then [Directions.SE] else [])
    else [])
  queue.flatMap (explore_king_moves_unfiltered s b start team_color ·)

/-- The number of moves in a list of move groups that target the square
`q`. -/
def targetsCount (ms : List Moves) (q : Coordinate) : Nat :=
  (ms.map fun m => (m.basic_move.filter fun bm => bm.to = q).length).sum

/-- Well-formedness of the threat grid: at least eight columns of at
least eight entries (the engine always builds exactly 8x8; reads stay in
range under this weaker invariant even after out-of-range splices). -/
def threatWF (b : Board) : Prop :=
  8 ≤ b.threatened_state.length ∧ ∀ col ∈ b.threatened_state, 8 ≤ col.length

/-- The coordinates `pawn_moves` passes to the occupancy lookups
(`piece_in_front` / `piece_on_square`), in evaluation order: the row
ahead, the double-step row (probed whenever the row ahead is free — the
`&&` evaluates it before testing `has_moved`), and the diagonals. -/
def pawn_examined (b : Board) (start : Coordinate) (team_color : PieceColor) :
    List Coordinate :=
  let next_r := next_row start.y team_color 1
  let capture_diagonal : List Coordinate :=
    if start.x = 0 then [⟨start.x + 1, next_r⟩]
    else [⟨start.x - 1, next_r⟩, ⟨start.x + 1, next_r⟩]
  ⟨start.x, next_r⟩ ::
    ((if !(piece_in_front b start team_color 1) then
        [⟨start.x, next_row start.y team_color 2⟩]
      else []) ++ capture_diagonal)


/-! ## Claim theorems -/

/-- C4: the claim fails on the code.  In a position where a dark pawn
just advanced two squares from `(0,6)` to `(0,4)` (en-passant target
square `(0,5)`, actual square `(0,4)`), the adjacent light pawn's
generated diagonal capture onto the target square carries the hardcoded
`Capture` target `(6,1)` — not the square `(0,4)` actually occupied by
the pawn that advanced. -/
theorem C4_en_passant_capture_target_hardcoded :
    pawn_moves epPosition.1 epPosition.2 ⟨1, 4⟩ PieceColor.Light true
      = [⟨⟨1, 5⟩, none⟩, ⟨⟨0, 5⟩, some ⟨PieceType.Pawn, ⟨6, 1⟩⟩⟩]
    ∧ epPosition.2.en_passant_target = some ⟨⟨0, 5⟩, ⟨0, 4⟩⟩ := by
  decide

/-- C5: the claim fails on the code.  On an empty board whose threat grid
records one light threat on `(2,7)` — the square the dark king lands on
castling queen-side — `get_castle_moves` still returns the dark
queen-side castle, because the source reads the threat counts of `(3,7)`
and `(4,7)` instead of `(3,7)` and `(2,7)`. -/
theorem C5_dark_queen_side_ignores_landing_square :
    get_castle_moves BoardCastleState.default PieceColor.Dark dqsThreatBoard
      = [⟨CastleMoveType.DarkQueenSide⟩, ⟨CastleMoveType.DarkKingSide⟩]
    ∧ (dqsThreatBoard.get_threatened_state ⟨2, 7⟩).threatened_light = 1
    ∧ (dqsThreatBoard.get_threatened_state ⟨3, 7⟩).threatened_light = 0
    ∧ (dqsThreatBoard.get_threatened_state ⟨4, 7⟩).threatened_light = 0 := by
  decide

/-- C10: `eval_board` sums each side's piece values in unsigned
arithmetic and subtracts; when dark's total value exceeds light's the
subtraction underflows (the embedding's `none`), and otherwise the
nonnegative difference is returned. -/
theorem C10_eval_board_unsigned_subtraction (s : Store) (b : Board) :
    (b.team_value s PieceColor.Light < b.team_value s PieceColor.Dark →
      b.eval_board s = none)
    ∧ (b.team_value s PieceColor.Dark ≤ b.team_value s PieceColor.Light →
      b.eval_board s
        = some (b.team_value s PieceColor.Light - b.team_value s PieceColor.Dark)) := by
  constructor
  · intro h
    have hn : ¬ b.team_value s PieceColor.Dark ≤ b.team_value s PieceColor.Light := by
      omega
    simp only [Board.eval_board, if_neg hn]
  · intro h
    simp only [Board.eval_board, if_pos h]

/-- C10 witness: a board holding only a dark queen makes `eval_board`
fail (dark total 90, light total 0). -/
theorem C10_eval_board_unsigned_subtraction_witness :
    Board.eval_board darkQueenPosition.1 darkQueenPosition.2 = none :=
  (C10_eval_board_unsigned_subtraction darkQueenPosition.1 darkQueenPosition.2).1
    (by decide)

/-- C2: the claim fails on the code.  Committing the quiet move
`(0,1) → (0,2)` of a lone light pawn leaves the grid cell `(0,1)` still
occupied (the `remove_piece` splice over the empty range `y..y` removes
nothing), while the piece list no longer holds any piece with coordinate
`(0,1)`: the two views disagree and the origin square is not empty.  The
repo's own tests (`test_movement`, `test_capture` in `movement.rs`)
expect `get_at` on the vacated square to be `None`. -/
theorem C2_grid_keeps_stale_origin_after_do_blunder :
    (Board.do_blunder onePawnPosition.1 onePawnPosition.2 ⟨0, 1⟩ ⟨⟨0, 2⟩, none⟩).map
      (fun r =>
        ((r.2.get_at ⟨0, 1⟩).isSome,
          r.2.pieces.any fun i => (Store.pieceAt r.1 i).coordinate = ⟨0, 1⟩,
          (r.2.get_at ⟨0, 2⟩).isSome))
      = some (true, false, true) := by
  decide

/-- C6: the claim fails on the code for castling.  A `do_blunder` flips
the side to move, but `Board::castle` issues two `do_blunder` commits, so
the flag is flipped twice and the color that castled is still the side to
move afterwards.  Concretely, after the light king-side castle the side
to move is still Light. -/
theorem C6_castle_leaves_side_to_move_unchanged :
    lksPosition.2.to_move = PieceColor.Light
    ∧ (Board.do_blunder lksPosition.1 lksPosition.2 ⟨4, 0⟩
        (BasicMove.new_move ⟨6, 0⟩)).map (fun r => r.2.to_move)
        = some PieceColor.Dark
    ∧ (Board.castle lksPosition.1 lksPosition.2 ⟨CastleMoveType.LightKingSide⟩).map
        (fun r => r.2.to_move) = some PieceColor.Light := by
  decide

/-- C7 counterexample: the claim's frame condition fails on the code.
Before the light queen-side castle both dark castle rights are set; after
it `Board::castle` assigns `BoardCastleState::empty()`, so the dark
rights are cleared as well instead of keeping their values. -/
theorem C7_counterexample_castle_clears_dark_rights :
    lqsPosition.2.castle_state.dark_king_side = true
    ∧ lqsPosition.2.castle_state.dark_queen_side = true
    ∧ (Board.castle lqsPosition.1 lqsPosition.2 ⟨CastleMoveType.LightQueenSide⟩).map
        (fun r => (r.2.castle_state.dark_king_side, r.2.castle_state.dark_queen_side))
        = some (false, false) := by
  decide

/-- C7 amended: after `Board::castle` executes any castle move that
completes, *all four* castle rights — the moving color's and the
opponent's alike — are cleared (`BoardCastleState::empty()`), regardless
of their previous values. -/
theorem C7_castle_clears_all_rights (s : Store) (b : Board) (cm : CastleMove)
    (s2 : Store) (b2 : Board) (h : Board.castle s b cm = some (s2, b2)) :
    b2.castle_state = BoardCastleState.empty := by
  unfold Board.castle at h
  simp only [Option.map_eq_some'] at h
  obtain ⟨⟨sa, ba⟩, -, hf⟩ := h
  injection hf with h1 h2
  subst h2
  rfl

/-- C7 witness: the light queen-side castle on `lqsPosition` completes,
and the amended theorem applies to it. -/
theorem C7_castle_clears_all_rights_witness :
    ∃ s2 b2,
      Board.castle lqsPosition.1 lqsPosition.2 ⟨CastleMoveType.LightQueenSide⟩
        = some (s2, b2)
      ∧ b2.castle_state = BoardCastleState.empty := by
  have h : (Board.castle lqsPosition.1 lqsPosition.2
      ⟨CastleMoveType.LightQueenSide⟩).isSome = true := by decide
  obtain ⟨⟨s2, b2⟩, hp⟩ := Option.isSome_iff_exists.mp h
  exact ⟨s2, b2, hp, C7_castle_clears_all_rights _ _ _ _ _ hp⟩

/-- The `check_square_in_loop!` body, re-read through the occupancy of
the square: empty continues with a quiet move, an enemy occupant gives a
single capture, an own occupant gives nothing. -/
theorem check_square_in_loop_eq (s : Store) (b : Board) (x y : Nat)
    (tc : PieceColor) (rest : List BasicMove) :
    check_square_in_loop s b x y tc rest
      = match piece_on_square b ⟨x, y⟩ with
        | some i =>
          if (Store.pieceAt s i).color = tc then []
          else [⟨⟨x, y⟩, some ⟨(Store.pieceAt s i).pieceType, ⟨x, y⟩⟩⟩]
        | none => ⟨⟨x, y⟩, none⟩ :: rest := by
  unfold check_square_in_loop coordinate_check check_square
  cases piece_on_square b ⟨x, y⟩ with
  | none => rfl
  | some i =>
    by_cases hc : (Store.pieceAt s i).color = tc <;> simp [hc]

/-- Unfolding `rayForm` over a cons cell. -/
theorem rayForm_cons (s : Store) (b : Board) (tc : PieceColor)
    (c : Coordinate) (L : List Coordinate) :
    rayForm s b tc (c :: L)
      = match piece_on_square b c with
        | some i =>
          if (Store.pieceAt s i).color = tc then []
          else [⟨c, some ⟨(Store.pieceAt s i).pieceType, c⟩⟩]
        | none => ⟨c, none⟩ :: rayForm s b tc L := by
  cases h : piece_on_square b c with
  | none =>
    simp [rayForm, List.takeWhile_cons, List.dropWhile_cons, h]
  | some i =>
    by_cases hc : (Store.pieceAt s i).color = tc <;>
      simp [rayForm, List.takeWhile_cons, List.dropWhile_cons, h, hc]

/-- The `while` loops of `explore_direction` compute exactly the
claim-side `rayForm` of the squares they visit. -/
theorem explore_loop_eq_rayForm (s : Store) (b : Board) (tc : PieceColor)
    (step : Nat × Nat → Nat × Nat) :
    ∀ (fuel : Nat) (p : Nat × Nat),
      explore_loop s b tc step p fuel = rayForm s b tc (coordPath step p fuel)
  | 0, _ => rfl
  | Nat.succ fuel, p => by
    rw [explore_loop, coordPath, rayForm_cons,
      check_square_in_loop_eq s b (step p).1 (step p).2 tc,
      explore_loop_eq_rayForm s b tc step fuel (step p)]

/-- The path of the northward loop. -/
theorem coordPath_N (x y n : Nat) :
    coordPath (fun p => (p.1, p.2 + 1)) (x, y) n
      = (List.range n).map fun k => (⟨x, y + k + 1⟩ : Coordinate) := by
  induction n generalizing y with
  | zero => rfl
  | succ n ih =>
    simp only [coordPath, ih, List.range_succ_eq_map, List.map_cons,
      List.map_map]
    congr 1
    refine List.map_congr_left fun a ha => ?_
    simp only [Function.comp_apply, Coordinate.mk.injEq, Nat.succ_eq_add_one,
      true_and, and_true]
    omega

/-- The path of the eastward loop. -/
theorem coordPath_E (x y n : Nat) :
    coordPath (fun p => (p.1 + 1, p.2)) (x, y) n
      = (List.range n).map fun k => (⟨x + k + 1, y⟩ : Coordinate) := by
  induction n generalizing x with
  | zero => rfl
  | succ n ih =>
    simp only [coordPath, ih, List.range_succ_eq_map, List.map_cons,
      List.map_map]
    congr 1
    refine List.map_congr_left fun a ha => ?_
    simp only [Function.comp_apply, Coordinate.mk.injEq, Nat.succ_eq_add_one,
      true_and, and_true]
    omega

/-- The path of the southward loop. -/
theorem coordPath_S (x y n : Nat) :
    coordPath (fun p => (p.1, p.2 - 1)) (x, y) n
      = (List.range n).map fun k => (⟨x, y - k - 1⟩ : Coordinate) := by
  induction n generalizing y with
  | zero => rfl
  | succ n ih =>
    simp only [coordPath, ih, List.range_succ_eq_map, List.map_cons,
      List.map_map]
    congr 1
    refine List.map_congr_left fun a ha => ?_
    simp only [Function.comp_apply, Coordinate.mk.injEq, Nat.succ_eq_add_one,
      true_and, and_true]
    omega

/-- The path of the westward loop. -/
theorem coordPath_W (x y n : Nat) :
    coordPath (fun p => (p.1 - 1, p.2)) (x, y) n
      = (List.range n).map fun k => (⟨x - k - 1, y⟩ : Coordinate) := by
  induction n generalizing x with
  | zero => rfl
  | succ n ih =>
    simp only [coordPath, ih, List.range_succ_eq_map, List.map_cons,
      List.map_map]
    congr 1
    refine List.map_congr_left fun a ha => ?_
    simp only [Function.comp_apply, Coordinate.mk.injEq, Nat.succ_eq_add_one,
      true_and, and_true]
    omega

/-- The path of the north-west loop. -/
theorem coordPath_NW (x y n : Nat) :
    coordPath (fun p => (p.1 - 1, p.2 + 1)) (x, y) n
      = (List.range n).map fun k => (⟨x - k - 1, y + k + 1⟩ : Coordinate) := by
  induction n generalizing x y with
  | zero => rfl
  | succ n ih =>
    simp only [coordPath, ih, List.range_succ_eq_map, List.map_cons,
      List.map_map]
    congr 1
    refine List.map_congr_left fun a ha => ?_
    simp only [Function.comp_apply, Coordinate.mk.injEq, Nat.succ_eq_add_one,
      true_and, and_true]
    omega

/-- The path of the north-east loop. -/
theorem coordPath_NE (x y n : Nat) :
    coordPath (fun p => (p.1 + 1, p.2 + 1)) (x, y) n
      = (List.range n).map fun k => (⟨x + k + 1, y + k + 1⟩ : Coordinate) := by
  induction n generalizing x y with
  | zero => rfl
  | succ n ih =>
    simp only [coordPath, ih, List.range_succ_eq_map, List.map_cons,
      List.map_map]
    congr 1
    refine List.map_congr_left fun a ha => ?_
    simp only [Function.comp_apply, Coordinate.mk.injEq, Nat.succ_eq_add_one,
      true_and, and_true]
    omega

/-- The path of the south-east loop. -/
theorem coordPath_SE (x y n : Nat) :
    coordPath (fun p => (p.1 + 1, p.2 - 1)) (x, y) n
      = (List.range n).map fun k => (⟨x + k + 1, y - k - 1⟩ : Coordinate) := by
  induction n generalizing x y with
  | zero => rfl
  | succ n ih =>
    simp only [coordPath, ih, List.range_succ_eq_map, List.map_cons,
      List.map_map]
    congr 1
    refine List.map_congr_left fun a ha => ?_
    simp only [Function.comp_apply, Coordinate.mk.injEq, Nat.succ_eq_add_one,
      true_and, and_true]
    omega

/-- The path of the south-west loop. -/
theorem coordPath_SW (x y n : Nat) :
    coordPath (fun p => (p.1 - 1, p.2 - 1)) (x, y) n
      = (List.range n).map fun k => (⟨x - k - 1, y - k - 1⟩ : Coordinate) := by
  induction n generalizing x y with
  | zero => rfl
  | succ n ih =>
    simp only [coordPath, ih, List.range_succ_eq_map, List.map_cons,
      List.map_map]
    congr 1
    refine List.map_congr_left fun a ha => ?_
    simp only [Function.comp_apply, Coordinate.mk.injEq, Nat.succ_eq_add_one,
      true_and, and_true]
    omega

/-- C8: for every sliding ray, `explore_direction` returns exactly the
`rayForm` of the ray's squares in origin-outward order — quiet moves
along the empty prefix, nothing past the first occupied square, and on
that square a capture if and only if the occupant is of the opposite
color (an own-colored occupant stops the ray with no move emitted).
`linear_moves` (rook) and `diagonal_moves` (bishop; the queen
concatenates both) are the concatenations of their four rays in source
order. -/
theorem C8_sliding_rays_stop_at_first_occupied (s : Store) (b : Board)
    (x y : Nat) (tc : PieceColor) :
    (∀ d : Directions,
      explore_direction s b d x y tc = rayForm s b tc (ray d x y))
    ∧ linear_moves s b ⟨x, y⟩ tc
        = rayForm s b tc (ray Directions.N x y)
          ++ rayForm s b tc (ray Directions.E x y)
          ++ rayForm s b tc (ray Directions.S x y)
          ++ rayForm s b tc (ray Directions.W x y)
    ∧ diagonal_moves s b ⟨x, y⟩ tc
        = rayForm s b tc (ray Directions.NW x y)
          ++ rayForm s b tc (ray Directions.NE x y)
          ++ rayForm s b tc (ray Directions.SE x y)
          ++ rayForm s b tc (ray Directions.SW x y) := by
  have hd : ∀ d : Directions,
      explore_direction s b d x y tc = rayForm s b tc (ray d x y) := by
    intro d
    cases d <;>
      simp only [explore_direction, explore_loop_eq_rayForm, ray,
        coordPath_N, coordPath_E, coordPath_S, coordPath_W, coordPath_NW,
        coordPath_NE, coordPath_SE, coordPath_SW]
  exact ⟨hd, by simp only [linear_moves, hd], by simp only [diagonal_moves, hd]⟩

/-- Splicing a singleton over `y..=y` is `List.set` in range and an
append past the end. -/
theorem splice_one (l : List α) (y : Nat) (a : α) :
    listSplice l y (y + 1) [a] = if y < l.length then l.set y a else l ++ [a] := by
  unfold listSplice
  split
  · next h =>
    rw [List.set_eq_take_cons_drop a h]
    simp
  · next h =>
    rw [List.take_of_length_le (by omega), List.drop_eq_nil_of_le (by omega)]
    simp

/-- A singleton splice never shrinks the list. -/
theorem splice_one_length_ge (l : List α) (y : Nat) (a : α) :
    l.length ≤ (listSplice l y (y + 1) [a]).length := by
  rw [splice_one]
  split <;> simp

/-- Reading a singleton splice at an in-range index. -/
theorem getD_splice_one (l : List α) (y j : Nat) (a d : α)
    (hj : j < l.length) :
    (listSplice l y (y + 1) [a]).getD j d
      = if y = j then a else l.getD j d := by
  rw [splice_one]
  split
  · next hy =>
    by_cases hyj : y = j
    · subst hyj
      simp [List.getD_eq_getElem?_getD, List.getElem?_set_self, hy]
    · simp [List.getD_eq_getElem?_getD, List.getElem?_set_ne hyj, hyj]
  · next hy =>
    have hyj : y ≠ j := by omega
    simp [List.getD_eq_getElem?_getD, List.getElem?_append, hj, hyj]

/-- Reading an index a `List.set` did not touch. -/
theorem getD_set_ne (l : List α) (i j : Nat) (a d : α) (h : i ≠ j) :
    (l.set i a).getD j d = l.getD j d := by
  simp [List.getD_eq_getElem?_getD, List.getElem?_set_ne h]

/-- Source: `set_threatened` writes one cell and leaves every other in-range cell
unchanged. -/
theorem get_threatened_state_set (b : Board) (c : Coordinate)
    (st : ThreatenedState) (q : Coordinate) (hWF : threatWF b)
    (hqx : q.x < 8) (hqy : q.y < 8) :
    (b.set_threatened c st).get_threatened_state q
      = if c = q then st else b.get_threatened_state q := by
  obtain ⟨hlen, hcols⟩ := hWF
  obtain ⟨cx, cy⟩ := c
  obtain ⟨qx, qy⟩ := q
  simp only [Coordinate.mk.injEq] at hqx hqy ⊢
  simp only [Board.set_threatened, Board.get_threatened_state]
  by_cases hx : cx = qx
  · subst hx
    have hxlen : cx < b.threatened_state.length := by omega
    have hcol : b.threatened_state.getD cx [] ∈ b.threatened_state := by
      rw [List.getD_eq_getElem?_getD, List.getElem?_eq_getElem hxlen]
      exact List.getElem_mem hxlen
    have hcollen : 8 ≤ (b.threatened_state.getD cx []).length := hcols _ hcol
    have hset : (b.threatened_state.set cx
          (listSplice (b.threatened_state.getD cx []) cy (cy + 1) [st])).getD
            cx []
        = listSplice (b.threatened_state.getD cx []) cy (cy + 1) [st] := by
      simp [List.getD_eq_getElem?_getD, List.getElem?_set_self, hxlen]
    rw [hset, getD_splice_one _ _ _ _ _ (by omega)]
    by_cases hy : cy = qy
    · simp [hy]
    · simp [hy, Ne.symm hy]
  · rw [getD_set_ne _ _ _ _ _ hx]
    simp [hx]

/-- Source: `set_threatened` preserves threat-grid well-formedness. -/
theorem threatWF_set_threatened (b : Board) (c : Coordinate)
    (st : ThreatenedState) (hWF : threatWF b) :
    threatWF (b.set_threatened c st) := by
  obtain ⟨hlen, hcols⟩ := hWF
  simp only [Board.set_threatened, threatWF]
  constructor
  · simpa using hlen
  · intro col hcol
    by_cases hx : c.x < b.threatened_state.length
    · rcases List.mem_or_eq_of_mem_set hcol with h | h
      · exact hcols _ h
      · subst h
        have hmem : b.threatened_state.getD c.x [] ∈ b.threatened_state := by
          rw [List.getD_eq_getElem?_getD, List.getElem?_eq_getElem hx]
          exact List.getElem_mem hx
        calc 8 ≤ (b.threatened_state.getD c.x []).length := hcols _ hmem
          _ ≤ _ := splice_one_length_ge _ _ _
    · rw [List.set_eq_of_length_le (by omega)] at hcol
      exact hcols _ hcol

/-- Source: `add_threat` bumps exactly the addressed team counter of the
addressed square. -/
theorem get_by_team_add_threat (b : Board) (c : Coordinate)
    (team : PieceColor) (q : Coordinate) (team' : PieceColor)
    (hWF : threatWF b) (hqx : q.x < 8) (hqy : q.y < 8) :
    ((b.add_threat c team).get_threatened_state q).get_by_team team'
      = ((b.get_threatened_state q).get_by_team team')
        + (if c = q ∧ team = team' then 1 else 0) := by
  cases team <;> cases team' <;>
    · unfold Board.add_threat
      rw [get_threatened_state_set _ _ _ _ hWF hqx hqy]
      by_cases hc : c = q <;> simp [hc, ThreatenedState.get_by_team]

/-- Source: `add_threat` preserves threat-grid well-formedness. -/
theorem threatWF_add_threat (b : Board) (c : Coordinate) (team : PieceColor)
    (hWF : threatWF b) : threatWF (b.add_threat c team) := by
  cases team <;> exact threatWF_set_threatened _ _ _ hWF

/-- The inner loop of `calculate_team_threatened_state` preserves
threat-grid well-formedness. -/
theorem threatWF_fold_add_threat (l : List BasicMove) (team : PieceColor) :
    ∀ b : Board, threatWF b →
      threatWF (l.foldl (fun acc bm => acc.add_threat bm.to team) b) := by
  induction l with
  | nil => exact fun b h => h
  | cons hd tl ih =>
    intro b h
    exact ih _ (threatWF_add_threat _ _ _ h)

/-- The inner loop of `calculate_team_threatened_state` adds, at each
square, one count per move of the list that targets it, for the
addressed team only. -/
theorem get_by_team_fold_add_threat (l : List BasicMove) (team : PieceColor)
    (q : Coordinate) (team' : PieceColor) (hqx : q.x < 8) (hqy : q.y < 8) :
    ∀ b : Board, threatWF b →
      ((l.foldl (fun acc bm => acc.add_threat bm.to team) b).get_threatened_state
          q).get_by_team team'
        = ((b.get_threatened_state q).get_by_team team')
          + (if team = team' then (l.filter fun bm => bm.to = q).length else 0) := by
  induction l with
  | nil => intro b _; simp
  | cons hd tl ih =>
    intro b hWF
    rw [List.foldl_cons, ih _ (threatWF_add_threat _ _ _ hWF),
      get_by_team_add_threat _ _ _ _ _ hWF hqx hqy]
    by_cases ht : team = team' <;> by_cases hto : hd.to = q <;>
      simp [ht, hto, List.filter_cons] <;> omega

/-- The outer loop of `calculate_team_threatened_state` preserves
threat-grid well-formedness. -/
theorem threatWF_fold_moves (ms : List Moves) (team : PieceColor) :
    ∀ b : Board, threatWF b →
      threatWF (ms.foldl
        (fun acc moves =>
          moves.basic_move.foldl (fun acc2 bm => acc2.add_threat bm.to team) acc)
        b) := by
  induction ms with
  | nil => exact fun b h => h
  | cons hd tl ih =>
    intro b h
    exact ih _ (threatWF_fold_add_threat _ _ _ h)

/-- The outer loop of `calculate_team_threatened_state` adds, at each
square, `targetsCount` of the processed move groups, for the addressed
team only. -/
theorem get_by_team_fold_moves (ms : List Moves) (team : PieceColor)
    (q : Coordinate) (team' : PieceColor) (hqx : q.x < 8) (hqy : q.y < 8) :
    ∀ b : Board, threatWF b →
      ((ms.foldl
          (fun acc moves =>
            moves.basic_move.foldl (fun acc2 bm => acc2.add_threat bm.to team) acc)
          b).get_threatened_state q).get_by_team team'
        = ((b.get_threatened_state q).get_by_team team')
          + (if team = team' then targetsCount ms q else 0) := by
  induction ms with
  | nil => intro b _; simp [targetsCount]
  | cons hd tl ih =>
    intro b hWF
    rw [List.foldl_cons, ih _ (threatWF_fold_add_threat _ _ _ hWF),
      get_by_team_fold_add_threat _ _ _ _ hqx hqy _ hWF]
    by_cases ht : team = team' <;> simp [ht, targetsCount] <;> omega

/-- C3 counterexample: on a board with a light rook on `(0,0)` and a dark
king on `(7,1)`, the square `(7,0)` is geometrically reachable by the
dark king (it appears among the unfiltered king moves), yet after the
full threat recompute its dark-threat count is `0`: the census generates
king moves *with* the self-check filter, and the light pass has already
marked `(7,0)`. -/
theorem C3_counterexample_king_square_not_counted :
    ((king_moves_unfiltered rookCornerPosition.1 rookCornerPosition.2 ⟨7, 1⟩
        PieceColor.Dark).any fun m => m.to = ⟨7, 0⟩) = true
    ∧ ((rookCornerPosition.2.calculate_threatened_states
          rookCornerPosition.1).get_threatened_state ⟨7, 0⟩).threatened_dark = 0
    ∧ ((rookCornerPosition.2.calculate_threatened_states
          rookCornerPosition.1).get_threatened_state ⟨7, 0⟩).threatened_light = 1 := by
  decide

/-- C3 (amended): the threat recompute runs the *play* generators — the
king's moves are filtered against the opponent-threat counts present at
the time of that color's pass — and it increments, per color, each
destination's counter once per generated move targeting it: Light is
counted first on top of the existing grid, then Dark on the grid already
holding Light's counts. -/
theorem C3_threat_census_counts_filtered_destinations (s : Store) (b : Board)
    (q : Coordinate) (hWF : threatWF b) (hqx : q.x < 8) (hqy : q.y < 8) :
    b.calculate_threatened_states s
      = (b.calculate_team_threatened_state s
          PieceColor.Light).calculate_team_threatened_state s PieceColor.Dark
    ∧ ((b.calculate_team_threatened_state s PieceColor.Light).get_threatened_state
          q).threatened_light
        = (b.get_threatened_state q).threatened_light
          + targetsCount (b.get_pseudo_legal_moves_util s PieceColor.Light) q
    ∧ ((b.calculate_team_threatened_state s PieceColor.Light).get_threatened_state
          q).threatened_dark
        = (b.get_threatened_state q).threatened_dark
    ∧ ((b.calculate_threatened_states s).get_threatened_state q).threatened_dark
        = ((b.calculate_team_threatened_state s
              PieceColor.Light).get_threatened_state q).threatened_dark
          + targetsCount
              ((b.calculate_team_threatened_state s
                  PieceColor.Light).get_pseudo_legal_moves_util s PieceColor.Dark)
              q
    ∧ ((b.calculate_threatened_states s).get_threatened_state q).threatened_light
        = ((b.calculate_team_threatened_state s
              PieceColor.Light).get_threatened_state q).threatened_light := by
  have hWF1 : threatWF (b.calculate_team_threatened_state s PieceColor.Light) :=
    threatWF_fold_moves _ _ _ hWF
  refine ⟨rfl, ?_, ?_, ?_, ?_⟩
  · exact get_by_team_fold_moves _ PieceColor.Light q PieceColor.Light hqx hqy _ hWF
  · simpa using
      get_by_team_fold_moves (b.get_pseudo_legal_moves_util s PieceColor.Light)
        PieceColor.Light q PieceColor.Dark hqx hqy _ hWF
  · exact get_by_team_fold_moves _ PieceColor.Dark q PieceColor.Dark hqx hqy _ hWF1
  · simpa using
      get_by_team_fold_moves
        ((b.calculate_team_threatened_state s
            PieceColor.Light).get_pseudo_legal_moves_util s PieceColor.Dark)
        PieceColor.Dark q PieceColor.Light hqx hqy _ hWF1

/-- C3 witness: the amended census characterization, instantiated on the
rook-and-king position at square `(7,0)`. -/
theorem C3_threat_census_witness :
    threatWF rookCornerPosition.2
    ∧ ((rookCornerPosition.2.calculate_team_threatened_state rookCornerPosition.1
          PieceColor.Light).get_threatened_state ⟨7, 0⟩).threatened_light
        = ((rookCornerPosition.2.get_threatened_state ⟨7, 0⟩).threatened_light
          + targetsCount
              (rookCornerPosition.2.get_pseudo_legal_moves_util rookCornerPosition.1
                PieceColor.Light) ⟨7, 0⟩) := by
  have hWF : threatWF rookCornerPosition.2 := by
    unfold threatWF
    exact ⟨by decide, by decide⟩
  exact ⟨hWF,
    (C3_threat_census_counts_filtered_destinations rookCornerPosition.1
        rookCornerPosition.2 ⟨7, 0⟩ hWF (by decide) (by decide)).2.1⟩

/-- Where a pawn move can go: the row ahead, the double-step row (only
with `has_moved` false), or a diagonal square that is either occupied or
the en-passant target square. -/
theorem pawn_moves_shape (s : Store) (b : Board) (x y : Nat)
    (tc : PieceColor) (hm : Bool) :
    ∀ m ∈ pawn_moves s b ⟨x, y⟩ tc hm,
      m.to = ⟨x, next_row y tc 1⟩
      ∨ (hm = false ∧ m.to = ⟨x, next_row y tc 2⟩)
      ∨ (∃ pc ∈ (if x = 0 then [(⟨x + 1, next_row y tc 1⟩ : Coordinate)]
            else [⟨x - 1, next_row y tc 1⟩, ⟨x + 1, next_row y tc 1⟩]),
          m.to = pc
          ∧ ((piece_on_square b pc).isSome
            ∨ ∃ e, b.en_passant_target = some e ∧ pc = e.target_square)) := by
  intro m hmem
  unfold pawn_moves at hmem
  simp only [List.mem_append] at hmem
  rcases hmem with hfwd | hdiag
  · by_cases h1 : piece_in_front b ⟨x, y⟩ tc 1
    · simp [h1] at hfwd
    · simp only [h1, Bool.not_false, if_pos] at hfwd
      rcases List.mem_cons.mp hfwd with h | h
      · left
        rw [h]
      · right; left
        by_cases h2 : !piece_in_front b ⟨x, y⟩ tc 2 && !hm
        · rw [if_pos h2] at h
          rcases List.mem_singleton.mp h with rfl
          refine ⟨?_, rfl⟩
          simp only [Bool.and_eq_true, Bool.not_eq_true'] at h2
          exact h2.2
        · rw [if_neg h2] at h
          exact absurd h (List.not_mem_nil _)
  · right; right
    obtain ⟨pc, hpc, hmm⟩ := List.mem_flatMap.mp hdiag
    refine ⟨pc, hpc, ?_⟩
    rcases List.mem_append.mp hmm with hcap | hep
    · cases hocc : piece_on_square b pc with
      | none =>
        simp only [hocc] at hcap
        exact absurd hcap (List.not_mem_nil _)
      | some i =>
        simp only [hocc] at hcap
        by_cases hc : (Store.pieceAt s i).color ≠ tc
        · rw [if_pos hc] at hcap
          rcases List.mem_singleton.mp hcap with rfl
          exact ⟨rfl, Or.inl (by simp [hocc])⟩
        · rw [if_neg hc] at hcap
          exact absurd hcap (List.not_mem_nil _)
    · cases hept : b.get_en_passant_target with
      | none =>
        simp only [hept] at hep
        exact absurd hep (List.not_mem_nil _)
      | some e =>
        simp only [hept] at hep
        by_cases hteq : pc = e.target_square
        · rw [if_pos hteq] at hep
          rcases List.mem_singleton.mp hep with rfl
          exact ⟨rfl, Or.inr ⟨e, hept, hteq⟩⟩
        · rw [if_neg hteq] at hep
          exact absurd hep (List.not_mem_nil _)

/-- C9 counterexample: the claim fails on the code.  A light pawn on the
final rank `(7,7)` is offered the off-board quiet move to `(7,8)`, and a
light pawn on file 7 at `(7,4)` probes the off-board square `(8,5)` —
only file 0 is guarded, so a pawn on file 7 does not "test only file
6". -/
theorem C9_counterexample_offboard_probe_and_destination :
    pawn_moves [] Board.empty ⟨7, 7⟩ PieceColor.Light true = [⟨⟨7, 8⟩, none⟩]
    ∧ ⟨8, 5⟩ ∈ pawn_examined Board.empty ⟨7, 4⟩ PieceColor.Light := by
  decide

/-- C9 (amended): `pawn_moves` guards only file 0; a pawn on file 7 also
probes the off-board file 8, whose lookup finds nothing and yields no
move, and the forward probes and destinations leave the board exactly
when the rows ahead do.  Precisely: on an 8-column grid, with the row
ahead on the board and any en-passant target on the board, every
returned destination is inside `[0,7]x[0,7]` provided the double-step
row is also on the board or the pawn has moved; and every coordinate
examined is inside `[0,7]x[0,7]` except that a pawn on file 7 also
examines file 8. -/
theorem C9_pawn_moves_stay_on_board (s : Store) (b : Board) (x y : Nat)
    (tc : PieceColor) (hm : Bool) (hx : x ≤ 7) (hgrid : b.board.length = 8)
    (h1 : next_row y tc 1 ≤ 7)
    (hep : ∀ e, b.en_passant_target = some e → e.target_square.x ≤ 7) :
    ((hm = true ∨ next_row y tc 2 ≤ 7) →
      ∀ m ∈ pawn_moves s b ⟨x, y⟩ tc hm, m.to.x ≤ 7 ∧ m.to.y ≤ 7)
    ∧ (next_row y tc 2 ≤ 7 →
      ∀ q ∈ pawn_examined b ⟨x, y⟩ tc,
        (q.x ≤ 7 ∨ (x = 7 ∧ q.x = 8)) ∧ q.y ≤ 7) := by
  have hnone : ∀ y', piece_on_square b ⟨8, y'⟩ = none := by
    intro y'
    have h8 : b.board[(8 : Nat)]? = none := List.getElem?_eq_none (by omega)
    simp [piece_on_square, Board.get_at, h8]
  constructor
  · intro hdouble m hmem
    rcases pawn_moves_shape s b x y tc hm m hmem with h | ⟨hmf, h⟩ |
      ⟨pc, hpc, hto, hcase⟩
    · rw [h]; exact ⟨hx, h1⟩
    · rw [h]
      refine ⟨hx, ?_⟩
      rcases hdouble with h' | h'
      · rw [hmf] at h'; cases h'
      · exact h'
    · have hpc' : pc = (⟨x - 1, next_row y tc 1⟩ : Coordinate)
          ∨ pc = (⟨x + 1, next_row y tc 1⟩ : Coordinate) := by
        by_cases hx0 : x = 0
        · rw [if_pos hx0] at hpc
          exact Or.inr (List.mem_singleton.mp hpc)
        · rw [if_neg hx0] at hpc
          simpa using hpc
      rw [hto]
      rcases hpc' with rfl | rfl
      · exact ⟨by show x - 1 ≤ 7; omega, h1⟩
      · refine ⟨?_, h1⟩
        show x + 1 ≤ 7
        by_cases hx7 : x = 7
        · exfalso
          subst hx7
          rcases hcase with hocc | ⟨e, hee, hte⟩
          · rw [hnone] at hocc
            cases hocc
          · have := hep e hee
            rw [← hte] at this
            exact absurd this (by show ¬ 7 + 1 ≤ 7; omega)
        · omega
  · intro h2 q hq
    unfold pawn_examined at hq
    rcases List.mem_cons.mp hq with rfl | hq
    · exact ⟨Or.inl hx, h1⟩
    rcases List.mem_append.mp hq with hfwd | hdiag
    · by_cases hc : !piece_in_front b ⟨x, y⟩ tc 1
      · rw [if_pos hc] at hfwd
        rcases List.mem_singleton.mp hfwd with rfl
        exact ⟨Or.inl hx, h2⟩
      · rw [if_neg hc] at hfwd
        exact absurd hfwd (List.not_mem_nil _)
    · have hdiag' : q = (⟨x - 1, next_row y tc 1⟩ : Coordinate)
          ∨ q = (⟨x + 1, next_row y tc 1⟩ : Coordinate) := by
        by_cases hx0 : x = 0
        · rw [if_pos hx0] at hdiag
          exact Or.inr (List.mem_singleton.mp hdiag)
        · rw [if_neg hx0] at hdiag
          simpa using hdiag
      rcases hdiag' with rfl | rfl
      · exact ⟨Or.inl (by show x - 1 ≤ 7; omega), h1⟩
      · by_cases hx7 : x = 7
        · exact ⟨Or.inr ⟨hx7, by show x + 1 = 8; omega⟩, h1⟩
        · exact ⟨Or.inl (by show x + 1 ≤ 7; omega), h1⟩

/-- C9 witness: the amended bounds, instantiated for the unmoved light
pawn on `(0,1)` of the empty board and its generated double-step move to
`(0,3)`: that destination stays on the board. -/
theorem C9_pawn_moves_stay_on_board_witness :
    (⟨⟨0, 3⟩, none⟩ : BasicMove).to.x ≤ 7
    ∧ (⟨⟨0, 3⟩, none⟩ : BasicMove).to.y ≤ 7 :=
  (C9_pawn_moves_stay_on_board [] Board.empty 0 1 PieceColor.Light false
    (by decide) (by decide) (by decide)
    (fun e h => by simp [Board.empty] at h)).1 (Or.inr (by decide))
    ⟨⟨0, 3⟩, none⟩ (by decide)

/-- C1: the claim fails on the code.  On `knightAttackPosition`, Light
plays the quiet pawn move `(7,2) → (7,3)`; afterwards Dark is to move
and the dark knight on `(0,0)` has a pseudo-legal move onto `(1,2)`, the
square holding Light's king — by the claim the move is illegal.  Yet
`check_if_legal_move` returns `true`: its reply probe relocates each
reply and only then looks for a king capture from the new square, which
misses the knight's direct attack.  Moreover the "clone" shares the
piece cells, so the probe mutates the caller's store: the moved pawn's
record (id 1) ends up at `(7,3)` in the store returned to the caller. -/
theorem C1_legality_probe_misses_knight_check :
    (Board.check_if_legal_move knightAttackPosition.1 knightAttackPosition.2
        ⟨7, 2⟩ ⟨⟨7, 3⟩, none⟩).map Prod.fst = some true
    ∧ ((Board.do_blunder knightAttackPosition.1 knightAttackPosition.2 ⟨7, 2⟩
          ⟨⟨7, 3⟩, none⟩).elim false fun p =>
        p.2.to_move == PieceColor.Dark
          && ((p.2.get_at ⟨1, 2⟩).elim false fun i =>
            (Store.pieceAt p.1 i).pieceType == PieceType.King
              && (Store.pieceAt p.1 i).color == PieceColor.Light)
          && (p.2.get_pseudo_legal_moves_util p.1 PieceColor.Dark).any
            (fun m => m.basic_move.any fun bm => bm.to == ⟨1, 2⟩)) = true
    ∧ (Store.pieceAt knightAttackPosition.1 1).coordinate = ⟨7, 2⟩
    ∧ (Board.check_if_legal_move knightAttackPosition.1 knightAttackPosition.2
        ⟨7, 2⟩ ⟨⟨7, 3⟩, none⟩).map
          (fun p => (Store.pieceAt p.2 1).coordinate) = some ⟨7, 3⟩ := by
  decide

end EnCroissant
